import Mathlib

/-!
# Verification of `image_compressor` (`src/compressor.rs`)

Shallow embedding of the resize-and-encode core of the `image_compressor`
crate.  The embedding follows `src/src/compressor.rs`:

* `Factor` with its validating constructor `Factor.new` (the Rust
  constructor panics on out-of-range arguments; the model returns
  `Option Factor`, `none` standing for the panic), the accessors and
  `Factor.default`;
* `Compressor.resize`, which multiplies the stored raster's dimensions by
  the ratio, truncating-casts the products to `u32`, and hands the result
  to `image::DynamicImage::resize` (external `image` crate: an
  aspect-ratio-preserving fit within the requested bounds), finally
  flattening the resized raster to a row-major RGB8 byte vector;
* `Compressor.compress`, the scanline-feeding loop around a `mozjpeg`
  compression context, whose backend entropy coder is kept abstract as a
  function argument (no claim inspects the JPEG bytes themselves);
* `Compressor.compress_image`, the composition of the two.

Numeric modelling: the Rust code computes with `f32`/`f64`; the model uses
exact rational arithmetic (`ℚ`).  All casts `as u32` become
`Int.toNat ∘ Rat.floor` plus saturation at `u32` max, `f64::round` becomes
`round : ℚ → ℤ` (both round half up for the nonnegative values that occur
here).  Machine-integer widths are irrelevant to the claims except where
stated via explicit hypotheses (`≤ u32Max`).
-/

/-- `u32::MAX`, the saturation bound of Rust's float-to-`u32` casts and of
the `image` crate's dimension computation. -/
def u32Max : ℕ := 4294967295

/-- Rust's `as u32` cast applied to a nonnegative real (modelled in `ℚ`):
truncate toward zero and saturate at `u32::MAX`. -/
def castF32toU32 (x : ℚ) : ℕ := min ⌊x⌋.toNat u32Max

/-- `Factor` from `compressor.rs`: quality and resize ratio of the new
compressed image (Rust fields are `f32`; modelled in `ℚ`). -/
structure Factor where
  quality : ℚ
  size_ratio : ℚ
  deriving DecidableEq, Repr

/-- `Factor::new` from `compressor.rs`.  The Rust constructor returns the
struct when `quality > 0 && quality <= 100 && size_ratio > 0 &&
size_ratio <= 1` and panics (`"Wrong Factor argument!"`) otherwise; the
panic is modelled as `none`. -/
def Factor.new (quality size_ratio : ℚ) : Option Factor :=
  if (quality > 0 ∧ quality ≤ 100) ∧ (size_ratio > 0 ∧ size_ratio ≤ 1) then
    some ⟨quality, size_ratio⟩
  else
    none

/-- `Factor::default`: quality `80.`, size ratio `0.8`. -/
def Factor.defaultFactor : Factor := ⟨80, 8/10⟩

/-- A decoded raster (`image::DynamicImage`, external decoder output):
width and height in pixels (`u32` in Rust) and per-pixel 8-bit RGB
samples after colour-space normalisation. -/
structure Raster where
  width : ℕ
  height : ℕ
  pix : ℕ → ℕ → ℕ × ℕ × ℕ

/-- A resampling kernel: given the source raster and the output
dimensions, produce the pixel at an output coordinate.  This stands for
the `FilterType::Triangle` resampling of the external `image` crate;
every theorem below holds for an arbitrary kernel, since no claim
depends on pixel values. -/
def ResampleKernel : Type := Raster → ℕ → ℕ → ℕ → ℕ → ℕ × ℕ × ℕ

/-- `image::math::utils::resize_dimensions` (external `image` crate) with
`fill = false`: the largest dimensions preserving the aspect ratio of
`(width, height)` that fit within `(nwidth, nheight)`, each clamped to at
least 1; an intermediate result above `u32::MAX` is rescaled to fit. -/
def resize_dimensions (width height nwidth nheight : ℕ) : ℕ × ℕ :=
  let wratio : ℚ := (nwidth : ℚ) / (width : ℚ)
  let hratio : ℚ := (nheight : ℚ) / (height : ℚ)
  let ratio : ℚ := min wratio hratio
  let nw : ℕ := max (round ((width : ℚ) * ratio)).toNat 1
  let nh : ℕ := max (round ((height : ℚ) * ratio)).toNat 1
  if u32Max < nw then
    let ratio2 : ℚ := (u32Max : ℚ) / (width : ℚ)
    (u32Max, max (round ((height : ℚ) * ratio2)).toNat 1)
  else if u32Max < nh then
    let ratio2 : ℚ := (u32Max : ℚ) / (height : ℚ)
    (max (round ((width : ℚ) * ratio2)).toNat 1, u32Max)
  else
    (nw, nh)

/-- `image::DynamicImage::resize` (external `image` crate): if the
requested bounds equal the current dimensions the image is returned
unchanged (clone); otherwise the image is resampled to
`resize_dimensions` of the bounds, with the chosen filter. -/
def DynamicImage.resizeImage (kernel : ResampleKernel) (img : Raster)
    (nwidth nheight : ℕ) : Raster :=
  if nwidth = img.width ∧ nheight = img.height then img
  else
    let wh := resize_dimensions img.width img.height nwidth nheight
    ⟨wh.1, wh.2, fun x y => kernel img wh.1 wh.2 x y⟩

/-- `DynamicImage::into_rgb8().into_vec()`: the raster flattened to a
row-major byte vector, 3 bytes (R, G, B) per pixel. -/
def intoRGB8Vec (img : Raster) : List ℕ :=
  (List.range img.height).flatMap fun y =>
    (List.range img.width).flatMap fun x =>
      [(img.pix x y).1, (img.pix x y).2.1, (img.pix x y).2.2]

/-- `Compressor` from `compressor.rs`: a `Factor` and the stored decoded
raster. -/
structure Compressor where
  factor : Factor
  image : Raster

/-- `Compressor::new`: store the raster with the default `Factor`. -/
def Compressor.new (image : Raster) : Compressor :=
  ⟨Factor.defaultFactor, image⟩

/-- `Compressor::set_factor`. -/
def Compressor.set_factor (c : Compressor) (factor : Factor) : Compressor :=
  ⟨factor, c.image⟩

/-- `Compressor::resize` from `compressor.rs`: multiply the raster's
dimensions by `resize_ratio` (in `f32`, modelled exactly),
truncating-cast the products to `u32`, resize the image to those bounds
with the Triangle filter, and return the flattened RGB8 buffer together
with the resized dimensions.  The Rust signature wraps the triple in
`Result`, but every path returns `Ok`; the model returns the payload
directly. -/
def Compressor.resize (kernel : ResampleKernel) (c : Compressor)
    (resize_ratio : ℚ) : List ℕ × ℕ × ℕ :=
  let width := c.image.width
  let height := c.image.height
  let width' := castF32toU32 ((width : ℚ) * resize_ratio)
  let height' := castF32toU32 ((height : ℚ) * resize_ratio)
  let resized_img := DynamicImage.resizeImage kernel c.image width' height'
  (intoRGB8Vec resized_img, resized_img.width, resized_img.height)

/-- Outcome of a call that can return a value, return a recoverable
error (`Err` in Rust), or panic (abort the thread without a return
value). -/
inductive Outcome (α : Type) where
  | ok (v : α)
  | err (e : String)
  | panicked
  deriving DecidableEq, Repr

/-- Rust's slice indexing `&v[a..b]`: defined when `a ≤ b ≤ v.len()`,
a panic otherwise (modelled as `none`). -/
def sliceRange (v : List ℕ) (a b : ℕ) : Option (List ℕ) :=
  if a ≤ b ∧ b ≤ v.length then some ((v.drop a).take (b - a)) else none

/-- The scanline-feeding loop of `Compressor::compress`, for
`target_height ≥ 1` (the `target_height = 0` underflow is handled by the
caller below): starting at row `line`, feed `n` further scanlines, row
`j` being the slice `[j*width*3, (j+1)*width*3)` of the buffer.  In the
Rust loop `line` starts at 0, the loop breaks once
`line > target_height - 1`, so it runs exactly `target_height`
iterations.  Returns the rows submitted to the mozjpeg stream, `none`
when a slice is out of range (a Rust panic). -/
def feedRows (v : List ℕ) (width : ℕ) : ℕ → ℕ → Option (List (List ℕ))
  | _, 0 => some []
  | line, n + 1 => do
    let s ← sliceRange v (line * width * 3) ((line + 1) * width * 3)
    let rest ← feedRows v width (line + 1) n
    pure (s :: rest)

/-- The state of the mozjpeg `Compress` context at `finish_compress`:
everything `Compressor::compress` configured, plus the scanlines written,
in order.  `colorSpace` is `JCS_RGB`, `scanMode` is `Auto`,
`optimizeScans` is set, the destination is an in-memory buffer. -/
structure EncInput where
  colorSpace : String
  scanMode : String
  quality : ℚ
  width : ℕ
  height : ℕ
  memDest : Bool
  optimizeScans : Bool
  scanlines : List (List ℕ)

/-- The mozjpeg entropy-coding backend (`finish_compress` +
`data_to_vec`): an arbitrary deterministic function from the final
compression state to the JPEG bytes, `none` when `data_to_vec` fails.
It is kept abstract because no claim inspects the encoded bytes. -/
def EncBackend : Type := EncInput → Option (List ℕ)

/-- `Compressor::compress` from `compressor.rs`: configure a mozjpeg
context (RGB, auto scan mode, the given quality, the target size, a
memory destination, optimized scans), feed the buffer one scanline at a
time, finish, and extract the bytes.  Panic modelling: when
`target_height = 0` the loop condition `line > target_height - 1`
underflows the `usize` subtraction (a panic under debug overflow checks;
under release semantics the wrapped bound sends `line = 0` into an
out-of-range slice of the empty row range — a panic either way, never an
`Err`); a slice out of range likewise panics.  A `data_to_vec` failure is
mapped to the error string `"data_to_vec failed"`. -/
def Compressor.compress (backend : EncBackend) (_c : Compressor)
    (resized_img_data : List ℕ) (target_width target_height : ℕ)
    (quality : ℚ) : Outcome (List ℕ) :=
  if target_height = 0 then Outcome.panicked
  else
    match feedRows resized_img_data target_width 0 target_height with
    | none => Outcome.panicked
    | some lines =>
      match backend ⟨"JCS_RGB", "Auto", quality, target_width,
          target_height, true, true, lines⟩ with
      | none => Outcome.err "data_to_vec failed"
      | some compressed => Outcome.ok compressed

/-- `Compressor::compress_image` from `compressor.rs`: resize with the
stored factor's `size_ratio`, then compress the result with the stored
factor's `quality`.  (`resize` never returns `Err`, so the `?` on it
never propagates.) -/
def Compressor.compress_image (kernel : ResampleKernel)
    (backend : EncBackend) (c : Compressor) : Outcome (List ℕ) :=
  let r := c.resize kernel c.factor.size_ratio
  c.compress backend r.1 r.2.1 r.2.2 c.factor.quality

/-- A call `compressor.compress_image()` as a state transition: the Rust
receiver is `&self` (shared, no interior mutability in `Factor` or
`DynamicImage`), so the method can read but not replace the stored
factor and raster; the post-call state is therefore the pre-call state.
The pair returned is (return value, state after the call). -/
def Compressor.compress_image_call (kernel : ResampleKernel)
    (backend : EncBackend) (c : Compressor) :
    Outcome (List ℕ) × Compressor :=
  (c.compress_image kernel backend, c)

/-! ## Concrete fixtures used by counterexamples and witnesses -/

/-- A `w × h` solid-black raster. -/
def constRaster (w h : ℕ) : Raster := ⟨w, h, fun _ _ => (0, 0, 0)⟩

/-- A concrete (constant) resampling kernel. -/
def constKernel : ResampleKernel := fun _ _ _ _ _ => (0, 0, 0)

/-- A concrete (constant) entropy-coding backend. -/
def constBackend : EncBackend := fun _ => some []

/-! ## Helper lemmas -/

/-- Sum of a constant over `List.range`. -/
theorem sum_map_const_range (n b : ℕ) :
    ((List.range n).map fun _ => b).sum = n * b := by
  induction n with
  | zero => simp
  | succ m ih => rw [List.range_succ]; simp [ih, Nat.succ_mul]

/-- The flattened RGB8 buffer of a raster has exactly
`width * height * 3` bytes. -/
theorem intoRGB8Vec_length (img : Raster) :
    (intoRGB8Vec img).length = img.width * img.height * 3 := by
  unfold intoRGB8Vec
  rw [List.length_flatMap]
  simp only [Function.comp_def]
  have hrow : ∀ y : ℕ,
      ((List.range img.width).flatMap fun x =>
        [(img.pix x y).1, (img.pix x y).2.1, (img.pix x y).2.2]).length
        = img.width * 3 := by
    intro y
    rw [List.length_flatMap]
    simp only [Function.comp_def]
    have : ((List.range img.width).map fun x =>
        ([(img.pix x y).1, (img.pix x y).2.1, (img.pix x y).2.2]).length)
        = (List.range img.width).map fun _ => 3 := by
      exact List.map_congr_left fun x _ => rfl
    rw [this, sum_map_const_range]
  calc ((List.range img.height).map fun y =>
          ((List.range img.width).flatMap fun x =>
            [(img.pix x y).1, (img.pix x y).2.1, (img.pix x y).2.2]).length).sum
      = ((List.range img.height).map fun _ => img.width * 3).sum := by
        exact congrArg List.sum (List.map_congr_left fun y _ => hrow y)
    _ = img.height * (img.width * 3) := sum_map_const_range _ _
    _ = img.width * img.height * 3 := by ring

/-- Monotone bound for `round` against a natural number. -/
theorem round_toNat_le_of_le (x : ℚ) (n : ℕ) (h : x ≤ (n : ℚ)) :
    (round x).toNat ≤ n := by
  have h1 : round x ≤ round ((n : ℚ)) := by
    rw [round_eq, round_eq]
    exact Int.floor_mono (by linarith)
  rw [round_natCast] at h1
  omega

/-- The truncating `u32` cast does not saturate below `u32Max`. -/
theorem castF32toU32_eq_floor (x : ℚ) (n : ℕ) (hx : x ≤ (n : ℚ))
    (hn : n ≤ u32Max) : castF32toU32 x = ⌊x⌋.toNat := by
  unfold castF32toU32
  have h1 : ⌊x⌋ ≤ (n : ℤ) := by
    have := Int.floor_mono hx
    rwa [Int.floor_natCast] at this
  have h2 : ⌊x⌋.toNat ≤ n := by omega
  omega

/-- With a ratio in `(0, 1]`, the requested bound `⌊W * r⌋` lies below the
original dimension. -/
theorem floor_mul_ratio_le (W : ℕ) (r : ℚ) (hr1 : r ≤ 1) :
    ⌊(W : ℚ) * r⌋.toNat ≤ W := by
  have h1 : (W : ℚ) * r ≤ (W : ℚ) := by
    nlinarith [Nat.cast_nonneg (α := ℚ) W]
  have h2 : ⌊(W : ℚ) * r⌋ ≤ (W : ℤ) := by
    have := Int.floor_mono h1
    rwa [Int.floor_natCast] at this
  omega

/-- The scanline loop, when every slice is in range, submits exactly the
rows `line, line+1, ..., line+n-1`, in order, row `j` being the bytes
`[j*width*3, (j+1)*width*3)`. -/
theorem feedRows_eq_slices (v : List ℕ) (w : ℕ) :
    ∀ (n line : ℕ), (line + n) * w * 3 ≤ v.length →
      feedRows v w line n =
        some ((List.range' line n).map fun j =>
          (v.drop (j * w * 3)).take (w * 3)) := by
  intro n
  induction n with
  | zero => intro line _; simp [feedRows]
  | succ m ih =>
    intro line hlen
    have h1 : line * w * 3 ≤ (line + 1) * w * 3 :=
      mul_le_mul_right' (mul_le_mul_right' (Nat.le_succ line) w) 3
    have h2 : (line + 1) * w * 3 ≤ v.length :=
      le_trans
        (mul_le_mul_right' (mul_le_mul_right' (by omega : line + 1 ≤ line + (m + 1)) w) 3)
        hlen
    have h3 : (line + 1) * w * 3 - line * w * 3 = w * 3 := by
      have h4 : (line + 1) * w * 3 = line * w * 3 + w * 3 := by ring
      rw [h4, Nat.add_sub_cancel_left]
    have h5 : sliceRange v (line * w * 3) ((line + 1) * w * 3)
        = some ((v.drop (line * w * 3)).take (w * 3)) := by
      rw [sliceRange, if_pos ⟨h1, h2⟩, h3]
    have h6 : feedRows v w (line + 1) m =
        some ((List.range' (line + 1) m).map fun j =>
          (v.drop (j * w * 3)).take (w * 3)) := by
      apply ih
      have : (line + 1 + m) = line + (m + 1) := by omega
      rw [this]; exact hlen
    rw [feedRows, h5, h6, List.range'_succ]
    rfl

/-! ## Claim C5 -/

/-- C5: for every quality outside `(0, 100]` or size ratio outside
`(0, 1]`, `Factor::new` fails fatally (panics) instead of returning a
`Factor`. -/
theorem factor_new_rejects_out_of_range (q s : ℚ)
    (h : q ≤ 0 ∨ 100 < q ∨ s ≤ 0 ∨ 1 < s) :
    Factor.new q s = none := by
  rw [Factor.new, if_neg]
  rintro ⟨⟨hq0, hq100⟩, hs0, hs1⟩
  rcases h with h | h | h | h <;> linarith

/-- Witness for C5 at quality 101, size ratio 1/2. -/
theorem factor_new_rejects_out_of_range_witness :
    ((101 : ℚ) ≤ 0 ∨ (100 : ℚ) < 101 ∨ (1/2 : ℚ) ≤ 0 ∨ (1 : ℚ) < 1/2) ∧
      Factor.new 101 (1/2) = none :=
  ⟨by norm_num, factor_new_rejects_out_of_range 101 (1/2) (by norm_num)⟩

/-! ## Claim C6 -/

/-- C6: for every quality in `(0, 100]` and size ratio in `(0, 1]`,
`Factor::new` succeeds and the accessors return exactly the values passed
in. -/
theorem factor_new_accepts_in_range (q s : ℚ)
    (hq0 : 0 < q) (hq1 : q ≤ 100) (hs0 : 0 < s) (hs1 : s ≤ 1) :
    ∃ f : Factor, Factor.new q s = some f ∧ f.quality = q ∧ f.size_ratio = s :=
  ⟨⟨q, s⟩, by rw [Factor.new, if_pos ⟨⟨hq0, hq1⟩, hs0, hs1⟩], rfl, rfl⟩

/-- Witness for C6 at quality 80, size ratio 1/2. -/
theorem factor_new_accepts_in_range_witness :
    ((0 : ℚ) < 80 ∧ (80 : ℚ) ≤ 100 ∧ (0 : ℚ) < 1/2 ∧ (1/2 : ℚ) ≤ 1) ∧
      ∃ f : Factor, Factor.new 80 (1/2) = some f ∧
        f.quality = 80 ∧ f.size_ratio = 1/2 :=
  ⟨by norm_num,
    factor_new_accepts_in_range 80 (1/2) (by norm_num) (by norm_num)
      (by norm_num) (by norm_num)⟩

/-! ## Claim C7 -/

/-- C7: `Factor::default()` is exactly quality 80 and size ratio 0.8, and
`Compressor::new` stores this default factor. -/
theorem factor_default_and_compressor_new :
    Factor.defaultFactor.quality = 80 ∧
      Factor.defaultFactor.size_ratio = 0.8 ∧
      ∀ img : Raster, (Compressor.new img).factor = Factor.defaultFactor :=
  ⟨rfl, by norm_num [Factor.defaultFactor], fun _ => rfl⟩

/-! ## Claim C4 -/

/-- C4: running `compress_image()` twice on the same `Compressor` with an
unchanged `Factor` yields identical output: the second call starts from
the state left by the first call, returns the same bytes, and leaves the
state at the original one (no caching or hidden state; the encoder
backend is an arbitrary — hence deterministic — function). -/
theorem compress_image_deterministic (kernel : ResampleKernel)
    (backend : EncBackend) (c : Compressor) :
    (((c.compress_image_call kernel backend).2).compress_image_call
        kernel backend).1 = (c.compress_image_call kernel backend).1 ∧
      (((c.compress_image_call kernel backend).2).compress_image_call
        kernel backend).2 = c :=
  ⟨rfl, rfl⟩

/-- Witness for C4 on a 2×2 raster with the concrete kernel/backend. -/
theorem compress_image_deterministic_witness :
    ((((Compressor.new (constRaster 2 2)).compress_image_call constKernel
        constBackend).2).compress_image_call constKernel constBackend).1
      = ((Compressor.new (constRaster 2 2)).compress_image_call constKernel
        constBackend).1 ∧
      ((((Compressor.new (constRaster 2 2)).compress_image_call constKernel
        constBackend).2).compress_image_call constKernel constBackend).2
      = Compressor.new (constRaster 2 2) :=
  compress_image_deterministic constKernel constBackend
    (Compressor.new (constRaster 2 2))

/-! ## Claim C9 -/

/-- C9: a `compress_image()` call has no side effect on the `Compressor`:
the stored factor and the stored raster after the call are the ones from
before the call (the `&self` receiver cannot replace them; the body
performs no filesystem operation — there is none in the model to
perform). -/
theorem compress_image_no_side_effects (kernel : ResampleKernel)
    (backend : EncBackend) (c : Compressor) :
    ((c.compress_image_call kernel backend).2).factor = c.factor ∧
      ((c.compress_image_call kernel backend).2).image = c.image :=
  ⟨rfl, rfl⟩

/-- Witness for C9 on a 2×2 raster with the concrete kernel/backend. -/
theorem compress_image_no_side_effects_witness :
    (((Compressor.new (constRaster 2 2)).compress_image_call constKernel
        constBackend).2).factor = (Compressor.new (constRaster 2 2)).factor ∧
      (((Compressor.new (constRaster 2 2)).compress_image_call constKernel
        constBackend).2).image = (Compressor.new (constRaster 2 2)).image :=
  compress_image_no_side_effects constKernel constBackend
    (Compressor.new (constRaster 2 2))

/-! ## Claim C2 -/

/-- C2 (code bug): on precondition-violating encoder inputs the code
panics instead of returning an `EncodeError`.  With a pixel buffer of
length 2 < 1·1·3 the scanline slice `[0, 3)` is out of range (a Rust
bounds-check panic); with `target_height = 0` the loop condition
`line > target_height - 1` underflows the `usize` subtraction.  Neither
path produces an `Err` value. -/
theorem compress_precondition_violation_panics :
    (Compressor.new (constRaster 1 1)).compress constBackend
        (List.replicate 2 0) 1 1 80 = Outcome.panicked ∧
      (Compressor.new (constRaster 1 1)).compress constBackend [0, 0, 0] 1 0 80
        = Outcome.panicked := by
  decide

/-! ## Claim C1 -/

/-- C1 (counterexample): for the stored 10×5 raster and ratio 1/2 the
resize step does **not** produce `target_width = ⌊10 · (1/2)⌋ = 5`
(aspect-ratio preservation yields width 4), and the returned buffer
length is not `⌊10·(1/2)⌋ · ⌊5·(1/2)⌋ · 3 = 30` (it is 4·2·3 = 24). -/
theorem resize_floor_dims_refuted :
    ((Compressor.new (constRaster 10 5)).resize constKernel (1/2)).2.1
        ≠ ⌊(10 : ℚ) * (1/2)⌋.toNat ∧
      ((Compressor.new (constRaster 10 5)).resize constKernel (1/2)).1.length
        ≠ ⌊(10 : ℚ) * (1/2)⌋.toNat * ⌊(5 : ℚ) * (1/2)⌋.toNat * 3 := by
  have f1 : ⌊(10 : ℚ) * (1/2)⌋ = 5 := by rw [Int.floor_eq_iff]; norm_num
  have f2 : ⌊(5 : ℚ) * (1/2)⌋ = 2 := by rw [Int.floor_eq_iff]; norm_num
  have hc1 : castF32toU32 ((10 : ℚ) * (1/2)) = 5 := by
    rw [castF32toU32, f1]; decide
  have hc2 : castF32toU32 ((5 : ℚ) * (1/2)) = 2 := by
    rw [castF32toU32, f2]; decide
  have hrd : resize_dimensions 10 5 5 2 = (4, 2) := by
    have hmin : min ((5 : ℚ) / 10) ((2 : ℚ) / 5) = 2/5 := by norm_num
    have hr1 : round ((10 : ℚ) * (2/5)) = 4 := by norm_num [round_eq]
    have hr2 : round ((5 : ℚ) * (2/5)) = 2 := by norm_num [round_eq]
    simp only [resize_dimensions, hmin, hr1, hr2]
    norm_num [u32Max]
    decide
  have hres : ∀ p : ℕ × ℕ, p = resize_dimensions 10 5 5 2 →
      (Compressor.new (constRaster 10 5)).resize constKernel (1/2)
        = (intoRGB8Vec ⟨p.1, p.2, fun x y =>
            constKernel (constRaster 10 5) p.1 p.2 x y⟩, p.1, p.2) := by
    intro p hp
    simp only [Compressor.resize, Compressor.new, constRaster,
      DynamicImage.resizeImage, Nat.cast_ofNat, hc1, hc2]
    rw [if_neg (by norm_num)]
    rw [← hp]
  have hres2 := hres (4, 2) hrd.symm
  have hlen : (intoRGB8Vec (⟨4, 2, fun x y =>
      constKernel (constRaster 10 5) 4 2 x y⟩ : Raster)).length = 4 * 2 * 3 :=
    intoRGB8Vec_length _
  rw [hres2]
  constructor
  · rw [f1]; decide
  · rw [f1, f2]
    simp only [hlen]
    decide

/-! ## Claim C3 -/

/-- C3: for a buffer of length `w * h * 3` with `h ≥ 1`, the encoder
submits exactly the rows `0, 1, ..., h-1`, in that order, the scanline
of row `line` being the byte range `[line*w*3, (line+1)*w*3)` of the
buffer — these rows are what reaches the backend, and the call never
panics. -/
theorem compress_submits_scanlines_in_order (backend : EncBackend)
    (c : Compressor) (data : List ℕ) (w h : ℕ) (q : ℚ)
    (hlen : data.length = w * h * 3) (hh : 1 ≤ h) :
    c.compress backend data w h q =
      match backend ⟨"JCS_RGB", "Auto", q, w, h, true, true,
          (List.range h).map fun line =>
            (data.drop (line * w * 3)).take (w * 3)⟩ with
      | none => Outcome.err "data_to_vec failed"
      | some compressed => Outcome.ok compressed := by
  have hh0 : h ≠ 0 := by omega
  have hfeed : feedRows data w 0 h =
      some ((List.range' 0 h).map fun j =>
        (data.drop (j * w * 3)).take (w * 3)) := by
    apply feedRows_eq_slices
    have he : (0 + h) * w * 3 = w * h * 3 := by ring
    rw [he, hlen]
  rw [Compressor.compress, if_neg hh0, hfeed, ← List.range_eq_range']

/-- Witness for C3: a 1×2 buffer of 6 bytes, fed as rows [0,0,0] then
[1,1,1]. -/
theorem compress_submits_scanlines_in_order_witness :
    (([0, 0, 0, 1, 1, 1] : List ℕ).length = 1 * 2 * 3 ∧ 1 ≤ 2) ∧
      (Compressor.new (constRaster 1 1)).compress constBackend
          [0, 0, 0, 1, 1, 1] 1 2 80 =
        match constBackend ⟨"JCS_RGB", "Auto", 80, 1, 2, true, true,
            (List.range 2).map fun line =>
              (([0, 0, 0, 1, 1, 1] : List ℕ).drop (line * 1 * 3)).take
                (1 * 3)⟩ with
        | none => Outcome.err "data_to_vec failed"
        | some compressed => Outcome.ok compressed :=
  ⟨⟨by decide, by decide⟩,
    compress_submits_scanlines_in_order constBackend
      (Compressor.new (constRaster 1 1)) [0, 0, 0, 1, 1, 1] 1 2 80
      (by decide) (by decide)⟩

/-! ## Claim C10 -/

/-- Each component of `resize_dimensions` is at least 1 (the `image`
crate clamps with `max(..., 1)` in every branch). -/
theorem resize_dimensions_pos (w h nw nh : ℕ) :
    1 ≤ (resize_dimensions w h nw nh).1 ∧
      1 ≤ (resize_dimensions w h nw nh).2 := by
  rw [resize_dimensions]
  split
  · exact ⟨by norm_num [u32Max], le_max_right _ 1⟩
  · split
    · exact ⟨le_max_right _ 1, by norm_num [u32Max]⟩
    · exact ⟨le_max_right _ 1, le_max_right _ 1⟩

/-- C10: for a stored raster with positive dimensions and a size ratio
in `(0, 1]`, the resize step used by `compress_image` returns
`target_width ≥ 1` and `target_height ≥ 1` — the underlying resize
clamps each output dimension to at least 1 even when
`width * ratio` truncates to 0, so a zero-area buffer never reaches the
encoder. -/
theorem resize_dims_at_least_one (kernel : ResampleKernel) (f : Factor)
    (W H : ℕ) (pix : ℕ → ℕ → ℕ × ℕ × ℕ)
    (hW : 1 ≤ W) (hH : 1 ≤ H)
    (_hr0 : 0 < f.size_ratio) (_hr1 : f.size_ratio ≤ 1) :
    1 ≤ ((Compressor.mk f ⟨W, H, pix⟩).resize kernel f.size_ratio).2.1 ∧
      1 ≤ ((Compressor.mk f ⟨W, H, pix⟩).resize kernel f.size_ratio).2.2 := by
  simp only [Compressor.resize, DynamicImage.resizeImage]
  split
  · exact ⟨hW, hH⟩
  · exact resize_dimensions_pos _ _ _ _

/-- Witness for C10: a 1×1 raster with the default factor's ratio 0.8
(the bound ⌊1 · 0.8⌋ = 0 notwithstanding, the output is 1×1). -/
theorem resize_dims_at_least_one_witness :
    ((1 : ℕ) ≤ 1 ∧ (0 : ℚ) < Factor.defaultFactor.size_ratio ∧
        Factor.defaultFactor.size_ratio ≤ 1) ∧
      1 ≤ ((Compressor.mk Factor.defaultFactor
          ⟨1, 1, fun _ _ => (0, 0, 0)⟩).resize constKernel
          Factor.defaultFactor.size_ratio).2.1 ∧
        1 ≤ ((Compressor.mk Factor.defaultFactor
          ⟨1, 1, fun _ _ => (0, 0, 0)⟩).resize constKernel
          Factor.defaultFactor.size_ratio).2.2 :=
  ⟨⟨le_refl 1, by norm_num [Factor.defaultFactor], by norm_num [Factor.defaultFactor]⟩,
    resize_dims_at_least_one constKernel Factor.defaultFactor 1 1
      (fun _ _ => (0, 0, 0)) (le_refl 1) (le_refl 1)
      (by norm_num [Factor.defaultFactor]) (by norm_num [Factor.defaultFactor])⟩

/-! ## Claim C8 -/

/-- C8: resizing with ratio 1 is the identity on dimensions: the
requested bounds equal the current dimensions, so `resize` returns the
image unchanged.  (The `u32Max` bounds reflect the `u32` type of the
raster's dimensions in Rust.) -/
theorem resize_ratio_one_identity (kernel : ResampleKernel) (f : Factor)
    (W H : ℕ) (pix : ℕ → ℕ → ℕ × ℕ × ℕ)
    (hWm : W ≤ u32Max) (hHm : H ≤ u32Max) :
    ((Compressor.mk f ⟨W, H, pix⟩).resize kernel 1).2.1 = W ∧
      ((Compressor.mk f ⟨W, H, pix⟩).resize kernel 1).2.2 = H := by
  have hcast : ∀ n : ℕ, n ≤ u32Max → castF32toU32 ((n : ℚ)) = n := by
    intro n hn
    rw [castF32toU32, Int.floor_natCast]
    simp [hn]
  simp [Compressor.resize, DynamicImage.resizeImage,
    hcast W hWm, hcast H hHm]

/-- Witness for C8 on a 2×3 raster. -/
theorem resize_ratio_one_identity_witness :
    ((2 : ℕ) ≤ u32Max ∧ (3 : ℕ) ≤ u32Max) ∧
      ((Compressor.mk Factor.defaultFactor
          ⟨2, 3, fun _ _ => (0, 0, 0)⟩).resize constKernel 1).2.1 = 2 ∧
        ((Compressor.mk Factor.defaultFactor
          ⟨2, 3, fun _ _ => (0, 0, 0)⟩).resize constKernel 1).2.2 = 3 :=
  ⟨⟨by norm_num [u32Max], by norm_num [u32Max]⟩,
    resize_ratio_one_identity constKernel Factor.defaultFactor 2 3
      (fun _ _ => (0, 0, 0)) (by norm_num [u32Max]) (by norm_num [u32Max])⟩

/-- Amended C1 dimension formula: the resize step passes the truncated
bounds `bw = ⌊W·r⌋`, `bh = ⌊H·r⌋` to an aspect-ratio-preserving fit, so
with `k = min(bw/W, bh/H)` the output dimensions are
`(max(1, round(W·k)), max(1, round(H·k)))`.  (When the bounds equal the
original dimensions this formula also collapses to `(W, H)`, matching
the resize early return.) -/
def aspectFitDims (W H : ℕ) (r : ℚ) : ℕ × ℕ :=
  let bw : ℕ := ⌊(W : ℚ) * r⌋.toNat
  let bh : ℕ := ⌊(H : ℚ) * r⌋.toNat
  let k : ℚ := min ((bw : ℚ) / (W : ℚ)) ((bh : ℚ) / (H : ℚ))
  (max (round ((W : ℚ) * k)).toNat 1, max (round ((H : ℚ) * k)).toNat 1)

/-- For in-range bounds the `image` crate's `resize_dimensions` takes its
plain (non-overflow) branch. -/
theorem resize_dimensions_eq_of_le (w h nw nh : ℕ)
    (hw : 1 ≤ w) (hh : 1 ≤ h) (hwm : w ≤ u32Max) (hhm : h ≤ u32Max)
    (hnw : nw ≤ w) (_hnh : nh ≤ h) :
    resize_dimensions w h nw nh =
      (max (round ((w : ℚ) *
          min ((nw : ℚ) / (w : ℚ)) ((nh : ℚ) / (h : ℚ)))).toNat 1,
        max (round ((h : ℚ) *
          min ((nw : ℚ) / (w : ℚ)) ((nh : ℚ) / (h : ℚ)))).toNat 1) := by
  have hw0 : (0 : ℚ) < (w : ℚ) := Nat.cast_pos.mpr (by omega)
  have hh0 : (0 : ℚ) < (h : ℚ) := Nat.cast_pos.mpr (by omega)
  have hk1 : min ((nw : ℚ) / (w : ℚ)) ((nh : ℚ) / (h : ℚ)) ≤ 1 :=
    le_trans (min_le_left _ _) ((div_le_one hw0).mpr (by exact_mod_cast hnw))
  have h1 : (round ((w : ℚ) *
      min ((nw : ℚ) / (w : ℚ)) ((nh : ℚ) / (h : ℚ)))).toNat ≤ w :=
    round_toNat_le_of_le _ w (by nlinarith)
  have h2 : (round ((h : ℚ) *
      min ((nw : ℚ) / (w : ℚ)) ((nh : ℚ) / (h : ℚ)))).toNat ≤ h :=
    round_toNat_le_of_le _ h (by nlinarith)
  simp only [resize_dimensions]
  rw [if_neg (by push_neg; exact le_trans (Nat.max_le.mpr ⟨h1, hw⟩) hwm),
    if_neg (by push_neg; exact le_trans (Nat.max_le.mpr ⟨h2, hh⟩) hhm)]

/-- C1 (amended): for a stored raster of width `W ≥ 1`, height `H ≥ 1`
(`u32`-bounded) and ratio `r ∈ (0, 1]`, the resize step produces the
aspect-fit dimensions `aspectFitDims W H r` (not the floor of `W·r`,
`H·r` in general), and the returned flat RGB buffer has length exactly
`target_width * target_height * 3` for those actual dimensions. -/
theorem resize_dims_aspect_fit (kernel : ResampleKernel) (f : Factor)
    (W H : ℕ) (pix : ℕ → ℕ → ℕ × ℕ × ℕ) (r : ℚ)
    (hW : 1 ≤ W) (hH : 1 ≤ H) (hWm : W ≤ u32Max) (hHm : H ≤ u32Max)
    (_hr0 : 0 < r) (hr1 : r ≤ 1) :
    ((Compressor.mk f ⟨W, H, pix⟩).resize kernel r).2 = aspectFitDims W H r ∧
      ((Compressor.mk f ⟨W, H, pix⟩).resize kernel r).1.length
        = ((Compressor.mk f ⟨W, H, pix⟩).resize kernel r).2.1 *
          ((Compressor.mk f ⟨W, H, pix⟩).resize kernel r).2.2 * 3 := by
  have hW0 : (0 : ℚ) < (W : ℚ) := Nat.cast_pos.mpr (by omega)
  have hH0 : (0 : ℚ) < (H : ℚ) := Nat.cast_pos.mpr (by omega)
  have hWr : (W : ℚ) * r ≤ (W : ℚ) := by nlinarith
  have hHr : (H : ℚ) * r ≤ (H : ℚ) := by nlinarith
  have hcW : castF32toU32 ((W : ℚ) * r) = ⌊(W : ℚ) * r⌋.toNat :=
    castF32toU32_eq_floor _ W hWr hWm
  have hcH : castF32toU32 ((H : ℚ) * r) = ⌊(H : ℚ) * r⌋.toNat :=
    castF32toU32_eq_floor _ H hHr hHm
  have hbwW : ⌊(W : ℚ) * r⌋.toNat ≤ W := floor_mul_ratio_le W r hr1
  have hbhH : ⌊(H : ℚ) * r⌋.toNat ≤ H := floor_mul_ratio_le H r hr1
  constructor
  · simp only [Compressor.resize, DynamicImage.resizeImage, hcW, hcH,
      aspectFitDims]
    split
    · next hcond =>
      obtain ⟨h1, h2⟩ := hcond
      rw [h1, h2, div_self hW0.ne', div_self hH0.ne', min_self, mul_one,
        mul_one, round_natCast, round_natCast, Int.toNat_natCast,
        Int.toNat_natCast, Nat.max_eq_left hW, Nat.max_eq_left hH]
    · rw [resize_dimensions_eq_of_le W H _ _ hW hH hWm hHm hbwW hbhH]
  · simp only [Compressor.resize]
    exact intoRGB8Vec_length _

/-- Witness for the amended C1 at the 10×5 raster with ratio 1/2. -/
theorem resize_dims_aspect_fit_witness :
    ((1 : ℕ) ≤ 10 ∧ (1 : ℕ) ≤ 5 ∧ (10 : ℕ) ≤ u32Max ∧ (5 : ℕ) ≤ u32Max ∧
        (0 : ℚ) < 1/2 ∧ (1/2 : ℚ) ≤ 1) ∧
      ((Compressor.mk Factor.defaultFactor
          ⟨10, 5, fun _ _ => (0, 0, 0)⟩).resize constKernel (1/2)).2
          = aspectFitDims 10 5 (1/2) ∧
        ((Compressor.mk Factor.defaultFactor
          ⟨10, 5, fun _ _ => (0, 0, 0)⟩).resize constKernel (1/2)).1.length
          = ((Compressor.mk Factor.defaultFactor
              ⟨10, 5, fun _ _ => (0, 0, 0)⟩).resize constKernel (1/2)).2.1 *
            ((Compressor.mk Factor.defaultFactor
              ⟨10, 5, fun _ _ => (0, 0, 0)⟩).resize constKernel (1/2)).2.2 * 3 :=
  ⟨by norm_num [u32Max],
    resize_dims_aspect_fit constKernel Factor.defaultFactor 10 5
      (fun _ _ => (0, 0, 0)) (1/2) (by norm_num) (by norm_num)
      (by norm_num [u32Max]) (by norm_num [u32Max]) (by norm_num)
      (by norm_num)⟩
